import Mathlib

/-!
Verification of the review-aggregation core of the `imo` repository.

The Python sources under `backend/app` are shallowly embedded: pure string
manipulation becomes Lean string functions, network / browser effects become
explicitly injected outcomes (`Option` responses, functions from round index
to observed DOM state), and machine-level library calls (`urlparse`,
`parse_qs`, `str.count`) are re-implemented following CPython semantics to
the extent the embedded code exercises them.
-/

set_option maxHeartbeats 1000000

namespace Imo

/-! ## Python string primitives -/

/-- Characters stripped by Python `str.strip()` (ASCII whitespace). -/
def isPySpace (c : Char) : Bool :=
  c = ' ' || c = '\t' || c = '\n' || c = '\r' || c = '\x0b' || c = '\x0c'

/-- Python `s.strip()`. -/
def pyStrip (s : String) : String :=
  String.mk (((s.data.dropWhile isPySpace).reverse.dropWhile isPySpace).reverse)

/-- Whether `pat` is a prefix of `l`. -/
def startsWithList : List Char → List Char → Bool
  | [], _ => true
  | _ :: _, [] => false
  | p :: ps, c :: cs => p = c && startsWithList ps cs

/-- Left-to-right non-overlapping occurrence count of a non-empty pattern,
with explicit fuel (each step consumes at least one character, so fuel
`l.length` is enough). -/
def countOccAux (pat : List Char) : Nat → List Char → Nat
  | 0, _ => 0
  | fuel + 1, l =>
    match l with
    | [] => 0
    | _ :: cs =>
      if startsWithList pat l then 1 + countOccAux pat fuel (l.drop pat.length)
      else countOccAux pat fuel cs

/-- Python `s.count(pat)`: number of non-overlapping occurrences of `pat`
(`len(s)+1` for the empty pattern, as in CPython). -/
def pyCount (s pat : String) : Nat :=
  if pat = "" then s.length + 1 else countOccAux pat.data s.data.length s.data

/-- Python `pat in s` (substring containment). -/
def pyContains (s pat : String) : Bool :=
  decide (0 < pyCount s pat)

/-- Python `s.lower()` (character-wise). -/
def pyLower (s : String) : String :=
  String.mk (s.data.map Char.toLower)

/-- Python `s[:n]` (character slice). -/
def pyTake (s : String) (n : Nat) : String :=
  String.mk (s.data.take n)

/-- Split on a single separator character (CPython `str.split(sep)`). -/
def splitOnChar (sep : Char) : List Char → List (List Char)
  | [] => [[]]
  | c :: cs =>
    if c = sep then [] :: splitOnChar sep cs
    else
      match splitOnChar sep cs with
      | [] => [[c]]
      | h :: t => (c :: h) :: t

/-! ## InteractiveLoader: `GoogleReviewService._load_reviews_smart`

The browser is injected as two functions of the 0-based round index:
`counts i` is the loaded-item count `len(driver.find_elements(...))` observed
in round `i`, and `clicks i` tells whether `_click_more_reviews_fast`
succeeds in round `i` (it returns `False` both when the control is absent and
when the click fails; either way the loop stops). -/

/-- Why the round loop stopped. -/
inductive StopReason
  | stabilized
  | noButton
  | ceiling
deriving DecidableEq, Repr

/-- Observable outcome of the round loop: number of rounds executed, stop
reason, and the (0-based) round indices in which a click was attempted. -/
structure LoopResult where
  rounds : Nat
  reason : StopReason
  clickRounds : List Nat
deriving DecidableEq, Repr

/-- The `for i in range(max_rounds)` body of `_load_reviews_smart`:
`last` is `last_count`, `stable` is `stable_rounds`, `i` the round index,
and the first argument the remaining fuel (`max_rounds - i`). -/
def loadLoopAux (counts : Nat → Nat) (clicks : Nat → Bool) :
    Nat → Nat → Nat → Nat → LoopResult
  | 0, i, _, _ => ⟨i, .ceiling, []⟩
  | fuel + 1, i, last, stable =>
    let c := counts i
    let stable2 := if c = last then stable + 1 else 0
    if 2 ≤ stable2 then ⟨i + 1, .stabilized, []⟩
    else if clicks i then
      let r := loadLoopAux counts clicks fuel (i + 1) c stable2
      ⟨r.rounds, r.reason, i :: r.clickRounds⟩
    else ⟨i + 1, .noButton, [i]⟩

/-- The round loop of `_load_reviews_smart`: `last_count = 0`,
`stable_rounds = 0`, up to `max_rounds` rounds. -/
def loadReviewsSmartLoop (counts : Nat → Nat) (clicks : Nat → Bool)
    (maxRounds : Nat) : LoopResult :=
  loadLoopAux counts clicks maxRounds 0 0 0

/-- Value of the `stable_rounds` counter right after the count check of round
`j`, expressed directly on the injected count sequence (round 0 compares
against the initial `last_count = 0`). -/
def stableStreak (counts : Nat → Nat) : Nat → Nat
  | 0 => if counts 0 = 0 then 1 else 0
  | j + 1 => if counts (j + 1) = counts j then stableStreak counts j + 1 else 0

/-! ## Candidate review records -/

/-- The review dict built by the Reddit and forum fetchers. -/
structure ReviewRec where
  external_review_id : String
  source_review_id : String
  author : String
  rating : Option Nat
  title : String
  content : String
  source : String
  source_url : String
  relevance_score : ℚ
deriving DecidableEq, Repr

/-- Modelled from the spec: `normalize_relevance_score` lives in
`app/utils/product_identity.py`, which is absent from the sources (only its
callers are present); the spec says the score is "passed through a monotonic
squashing function bounding it to [0,1]", modelled as clamping to `[0,1]`. -/
def normalize_relevance_score (s : ℚ) : ℚ :=
  if s < 0 then 0 else if 1 < s then 1 else s

/-! ## `RedditClient` (`app/integrations/reddit.py`)

Network responses are injected: the search response of a query is
`Option (List RedditThreadData)` (`none` = the request raised), and each
thread carries the injected outcome of its own comments request. The
functions imported from the absent `app/utils/product_identity.py`
(`should_reject_thread`, `has_review_intent`, `calculate_relevance_score`,
with the product identity already applied) are parameters. -/

structure RedditComment where
  author : Option String
  body : String
  id : String
  created_utc : Nat
deriving DecidableEq, Repr

structure RedditThreadData where
  id : String
  title : String
  selftext : String
  permalink : String
  num_comments : Nat
  commentsResp : Option (List RedditComment)
deriving DecidableEq, Repr

structure RedditGates where
  shouldRejectThread : String → String → Bool
  hasReviewIntent : String → Bool
  calcScore : String → ℚ

/-- The acceptance threshold 0.6 (`mkRat` so that kernel evaluation works). -/
def relevanceThreshold : ℚ := mkRat 3 5

/-- One iteration of the comment loop of `_fetch_thread_reviews`. -/
def processComment (g : RedditGates) (threadId permalink threadTitle : String)
    (c : RedditComment) : Option ReviewRec :=
  if c.author = none ∨ c.author = some "[deleted]" ∨
      c.author = some "AutoModerator" then none
  else if c.body.length < 50 then none
  else if ¬ g.hasReviewIntent c.body then none
  else if g.calcScore c.body < relevanceThreshold then none
  else some {
    external_review_id := "reddit_" ++ threadId ++ "_" ++ c.id
    source_review_id := "reddit_" ++ threadId ++ "_" ++ c.id
    author := c.author.getD "Unknown"
    rating := none
    title := pyTake threadTitle 100
    content := pyTake c.body 2000
    source := "Reddit"
    source_url := "https://reddit.com" ++ permalink
    relevance_score := normalize_relevance_score (g.calcScore c.body) }

/-- Embeds `RedditClient._fetch_thread_reviews`: `none` models any raised
network/parse/timeout error (all caught, returning `[]`). -/
def fetchThreadReviews (g : RedditGates) (threadId permalink threadTitle : String)
    (resp : Option (List RedditComment)) : List ReviewRec :=
  match resp with
  | none => []
  | some comments => comments.filterMap (processComment g threadId permalink threadTitle)

/-- Embeds `RedditClient._search_query`: thread-level gate, then comment fetch. -/
def redditSearchQuery (g : RedditGates) (resp : Option (List RedditThreadData)) :
    List ReviewRec :=
  match resp with
  | none => []
  | some threads =>
    threads.flatMap fun t =>
      if g.shouldRejectThread t.title t.selftext then []
      else if t.num_comments < 3 then []
      else fetchThreadReviews g t.id t.permalink t.title t.commentsResp

/-- The `seen_ids` loop of `RedditClient.search_product`:
`if review_id and review_id not in seen_ids`. -/
def dedupByIdAux : List String → List ReviewRec → List ReviewRec
  | _, [] => []
  | seen, r :: rest =>
    if r.external_review_id ≠ "" ∧ r.external_review_id ∉ seen then
      r :: dedupByIdAux (r.external_review_id :: seen) rest
    else dedupByIdAux seen rest

/-- Embeds `RedditClient.search_product`: the degenerate-title early return, then
the per-query loop (per-query injected responses in `queryResps`) with
cross-query id deduplication. -/
def redditSearchProduct (g : RedditGates) (productName : String)
    (queryResps : List (Option (List RedditThreadData))) : List ReviewRec :=
  if pyStrip productName = "" then []
  else dedupByIdAux [] (queryResps.flatMap (redditSearchQuery g))

/-! ## `ForumClient` (`app/integrations/forums.py`)

The fetched page is injected post-parse: `text` is the boilerplate-stripped
`soup.get_text(...)` result, `paragraphs` the stripped texts of the
paragraph candidates, `pageTitle` the `<title>` text. `keywords` / `model`
come from the absent identity extractor; `calcScore` is the absent
`calculate_relevance_score` with the identity applied. -/

structure ForumPage where
  pageTitle : String
  text : String
  paragraphs : List String
deriving DecidableEq, Repr

structure ForumGates where
  keywords : List String
  model : String
  calcScore : String → ℚ

/-- The fixed ownership-phrase list of `_fetch_forum_page`. -/
def forumOwnershipPhrases : List String :=
  ["i bought", "i own", "i have", "i\x27ve been", "my experience",
   "my opinion", "using for", "owned for", "pros and cons", "recommend"]

/-- The fixed rejection-phrase list of `_fetch_forum_page`. -/
def forumRejectionPhrases : List String :=
  ["announcement", "press release", "breaking news", "just announced",
   "launching", "coming soon", "leak", "rumor", "reported",
   "stock alert", "price drop"]

/-- Stands for the md5-based review id (hex digest of url plus the first 100
content characters, truncated to 16), modelled as an uninterpreted tagging of
its inputs: no claim depends on hash values. -/
def forumReviewId (url content : String) : String :=
  "md5_" ++ url ++ "_" ++ pyTake content 100

/-- The page-level content gate of `_fetch_forum_page`: rules 1-4 in source
order. `true` means the page passed all four structural checks. -/
def forumGateRule1 (page : ForumPage) : Bool :=
  decide (1000 ≤ page.text.length)

def forumGateRule2 (g : ForumGates) (page : ForumPage) : Bool :=
  let keywordsFound := (g.keywords.filter
    (fun kw => kw ≠ "" && 0 < pyCount (pyLower page.text) kw)).length
  let modelPat := if pyLower g.model = "" then "xxx" else pyLower g.model
  decide (1 ≤ keywordsFound ∧ 2 ≤ pyCount (pyLower page.text) modelPat)

def forumGateRule3 (page : ForumPage) : Bool :=
  forumOwnershipPhrases.any (fun p => pyContains (pyLower page.text) p)

def forumGateRule4 (page : ForumPage) : Bool :=
  !(forumRejectionPhrases.any (fun p => pyContains (pyLower page.text) p))

/-- Embeds `ForumClient._fetch_forum_page`: `none` models any raised network/HTTP/
parse error (all caught, returning `[]`). -/
def forumFetchPage (g : ForumGates) (url : String) (resp : Option ForumPage) :
    List ReviewRec :=
  match resp with
  | none => []
  | some page =>
    if ¬ forumGateRule1 page then []
    else if ¬ forumGateRule2 g page then []
    else if ¬ forumGateRule3 page then []
    else if ¬ forumGateRule4 page then []
    else
      let score := g.calcScore (pyTake page.text 3000)
      if score < relevanceThreshold then []
      else
        let content0 := ((page.paragraphs.take 5).filter
          (fun p => 50 < p.length)).foldl (fun acc p => acc ++ p ++ " ") ""
        let content := if content0 = "" ∨ content0.length < 200 then
          pyTake page.text 2000 else content0
        let reviewId := forumReviewId url content
        [{ external_review_id := reviewId
           source_review_id := reviewId
           author := "Forum User"
           rating := none
           title := pyTake page.pageTitle 120
           content := pyTake content 1500
           source := "Forums"
           source_url := url
           relevance_score := normalize_relevance_score score }]

/-- The `seen_ids` loop of `ForumClient.search_product`
(`if review_id not in seen_ids`, no truthiness check here). -/
def forumDedupAux : List String → List ReviewRec → List ReviewRec
  | _, [] => []
  | seen, r :: rest =>
    if r.external_review_id ∉ seen then
      r :: forumDedupAux (r.external_review_id :: seen) rest
    else forumDedupAux seen rest

/-- Embeds `ForumClient.search_product`: degenerate-title early return, discovery
(`none` = the discovery raised; caught by the outer handler, returning `[]`),
the `[:15]` URL cap, per-URL fetch, id dedup. -/
def forumSearchProduct (g : ForumGates) (productTitle : String)
    (discovery : Option (List (String × Option ForumPage))) : List ReviewRec :=
  if pyStrip productTitle = "" then []
  else match discovery with
    | none => []
    | some urls =>
      forumDedupAux [] ((urls.take 15).flatMap (fun u => forumFetchPage g u.1 u.2))

/-! ## `GoogleReviewService` (`app/services/google_review_service.py`) -/

/-- CPython `urlsplit` scheme characters. -/
def isSchemeChar (c : Char) : Bool :=
  c.isAlphanum || c = '+' || c = '-' || c = '.'

/-- CPython `urlsplit`: if the URL has a `:` at position `> 0` with only
scheme characters before it, drop `scheme:`. -/
def dropScheme (l : List Char) : List Char :=
  match l.span (fun c => c ≠ ':') with
  | (before, rest) =>
    match rest with
    | [] => l
    | _ :: after =>
      match before with
      | [] => l
      | _ :: _ => if before.all isSchemeChar then after else l

/-- CPython `urlsplit` netloc: present only after a leading `//`, extending
to the next `/`, `?` or `#`. Returns `(netloc, remainder)`. -/
def splitNetloc (l : List Char) : List Char × List Char :=
  match l with
  | '/' :: '/' :: rest =>
    (rest.takeWhile (fun c => c ≠ '/' && c ≠ '?' && c ≠ '#'),
     rest.dropWhile (fun c => c ≠ '/' && c ≠ '?' && c ≠ '#'))
  | _ => ([], l)

/-- Computes `(urlparse(url).netloc, urlparse(url).query)`: scheme and netloc are
split off first, the fragment is everything after the first `#` of the
remainder, and the query everything after the first `?` before that. -/
def urlParts (url : String) : String × String :=
  let l1 := dropScheme url.data
  let nr := splitNetloc l1
  let beforeFrag := nr.2.takeWhile (fun c => c ≠ '#')
  let query :=
    match beforeFrag.dropWhile (fun c => c ≠ '?') with
    | [] => []
    | _ :: q => q
  (String.mk nr.1, String.mk query)

def urlNetloc (url : String) : String := (urlParts url).1

def urlQuery (url : String) : String := (urlParts url).2

/-- Keys of CPython `parse_qs(query)` with default arguments: fields split
on `&`, a field without `=` or with an empty value is dropped. -/
def parseQsKeys (q : String) : List String :=
  (splitOnChar '&' q.data).filterMap fun field =>
    if field = [] then none
    else
      let kr := field.span (fun c => c ≠ '=')
      match kr.2 with
      | [] => none
      | _ :: v => if v = [] then none else some (String.mk kr.1)

/-- Embeds `GoogleReviewService._is_valid_google_shopping_url`. -/
def isValidGoogleShoppingUrl (url : String) : Bool :=
  let keys := parseQsKeys (urlQuery url)
  pyContains (urlNetloc url) "google" &&
    (keys.contains "ibp" || keys.contains "prds" || keys.contains "udm")

/-- Raw fields found for one review element (`None` models an element whose
sub-element lookups raised, which the code skips). -/
structure RawGoogleItem where
  name : String
  rating_text : String
  review_text : String
  source : String
deriving DecidableEq, Repr

/-- The review dict built by `_parse_reviews`. -/
structure GoogleReview where
  reviewer_name : String
  rating : Nat
  title : String
  text : String
  review_date : String
  source : String
deriving DecidableEq, Repr

/-- Computes the first decimal digit of the text, as the rating parse does
with a regex search, and 0 if absent. -/
def firstDigit (s : String) : Nat :=
  match s.data.find? Char.isDigit with
  | some c => c.toNat - 48
  | none => 0

/-- The `process_review` worker of `_parse_reviews`: the basic validity
check (`review_text and len(review_text) > 10 and rating > 0`). -/
def processGoogleReview (d : RawGoogleItem) : Option GoogleReview :=
  if d.review_text ≠ "" ∧ 10 < d.review_text.length ∧ 0 < firstDigit d.rating_text then
    some { reviewer_name := if d.name = "" then "Anonymous" else d.name
           rating := firstDigit d.rating_text
           title := ""
           text := d.review_text
           review_date := ""
           source := d.source }
  else none

/-- Embeds `GoogleReviewService._parse_reviews` over the injected raw DOM items. -/
def parseGoogleReviews (items : List (Option RawGoogleItem)) : List GoogleReview :=
  (items.filterMap id).filterMap processGoogleReview

/-- Injected browser behaviour for one `fetch_google_reviews` call:
whether the Chrome session starts, whether `driver.get` succeeds, whether a
browser call inside the load loop raises, the per-round DOM observations,
and the raw review elements present after round `r`. -/
structure BrowserOutcome where
  launchOk : Bool
  navOk : Bool
  sessionFail : Bool
  counts : Nat → Nat
  clicks : Nat → Bool
  itemsAt : Nat → List (Option RawGoogleItem)

/-- The dict returned by `fetch_google_reviews` (success shape and error
shape merged; absent keys are `none`). -/
structure GoogleResult where
  success : Bool
  product_name : Option String
  total_reviews : Option Nat
  reviews : List GoogleReview
  source_url : Option String
  error : Option String
deriving DecidableEq, Repr

/-- Result of a `fetch_google_reviews` call plus which browser effects were
reached (`launched` = Chrome session construction attempted, `navigated` =
`driver.get` attempted). -/
structure GoogleFetchTrace where
  launched : Bool
  navigated : Bool
  result : GoogleResult
deriving DecidableEq, Repr

/-- Embeds `GoogleReviewService.fetch_google_reviews`: URL validation before any
browser work; every failure is caught by the enclosing handler and turned
into `success=False` with an error message and empty reviews. -/
def fetchGoogleReviews (url productName : String) (maxClicks : Nat)
    (b : BrowserOutcome) : GoogleFetchTrace :=
  if ¬ isValidGoogleShoppingUrl url then
    ⟨false, false,
      { success := false, product_name := none, total_reviews := none,
        reviews := [], source_url := none,
        error := some "Invalid Google Shopping URL" }⟩
  else if ¬ b.launchOk then
    ⟨true, false,
      { success := false, product_name := none, total_reviews := none,
        reviews := [], source_url := none,
        error := some "browser session failed" }⟩
  else if ¬ b.navOk then
    ⟨true, true,
      { success := false, product_name := none, total_reviews := none,
        reviews := [], source_url := none,
        error := some "page load failed" }⟩
  else if b.sessionFail then
    ⟨true, true,
      { success := false, product_name := none, total_reviews := none,
        reviews := [], source_url := none,
        error := some "browser session lost" }⟩
  else
    let loop := loadReviewsSmartLoop b.counts b.clicks maxClicks
    let revs := parseGoogleReviews (b.itemsAt loop.rounds)
    ⟨true, true,
      { success := true, product_name := some productName,
        total_reviews := some revs.length, reviews := revs,
        source_url := some url, error := none }⟩

/-! ## Deduplicator (spec-modelled)

Modelled from the spec: the Deduplicator implementation
(`CommunityReviewService` / `StoreReviewService` dedup steps) is not under
the sources; only the route docstrings in `app/api/routes/reviews.py`
record the thresholds. Per the spec, the input order is preserved, the
first-seen occurrence is kept, exact duplicates are identical
normalized-content values, and near duplicates are pairs whose similarity
reaches the source-specific threshold. -/

inductive ReviewSource
  | discussion | forum | retailer | shopping
deriving DecidableEq, Repr

/-- Modelled from the spec: 0.90 for discussion/forum/retailer sources,
0.95 for the shopping-results source. -/
def sourceThreshold : ReviewSource → ℚ
  | .discussion => mkRat 9 10
  | .forum => mkRat 9 10
  | .retailer => mkRat 9 10
  | .shopping => mkRat 19 20

/-- Modelled from the spec: a text is a duplicate of a kept one when the
normalized contents coincide (exact) or the similarity is at or above the
source threshold (near). -/
def dupCriterion (src : ReviewSource) (sim : String → String → ℚ)
    (norm : String → String) (a b : String) : Bool :=
  norm a = norm b || decide (sourceThreshold src ≤ sim a b)

/-- Modelled from the spec: stable first-seen-keeping collapse — each text
is compared against the already-kept ones and dropped iff some kept text
makes the duplicate criterion true. -/
def dedupAux (dup : String → String → Bool) (kept : List String) :
    List String → List String
  | [] => kept.reverse
  | r :: rest =>
    if kept.any (fun k => dup k r) then dedupAux dup kept rest
    else dedupAux dup (r :: kept) rest

/-- Modelled from the spec: the Deduplicator on an ordered list of texts. -/
def deduplicate (dup : String → String → Bool) (l : List String) : List String :=
  dedupAux dup [] l

end Imo

namespace Imo

/-! ## Lemmas about the InteractiveLoader loop -/

theorem loadLoopAux_rounds_le (counts : Nat → Nat) (clicks : Nat → Bool) :
    ∀ fuel i last stable,
      (loadLoopAux counts clicks fuel i last stable).rounds ≤ i + fuel := by
  intro fuel
  induction fuel with
  | zero => intro i last stable; simp [loadLoopAux]
  | succ n ih =>
    intro i last stable
    simp only [loadLoopAux]
    by_cases h2 : 2 ≤ (if counts i = last then stable + 1 else 0)
    · simp only [h2, if_true]
      omega
    · by_cases hck : clicks i
      · simp only [h2, hck, if_false, if_true]
        have := ih (i + 1) (counts i) (if counts i = last then stable + 1 else 0)
        omega
      · simp only [h2, hck, Bool.false_eq_true, if_false]
        omega

theorem loadLoopAux_stop_on_streak (counts : Nat → Nat) (clicks : Nat → Bool)
    (j : Nat) (hj : 2 ≤ stableStreak counts j) :
    ∀ fuel i last stable,
      (i = 0 ∧ last = 0 ∧ stable = 0 ∨
        ∃ i2, i = i2 + 1 ∧ last = counts i2 ∧ stable = stableStreak counts i2) →
      i ≤ j →
      (loadLoopAux counts clicks fuel i last stable).rounds ≤ j + 1 := by
  intro fuel
  induction fuel with
  | zero =>
    intro i last stable _ hij
    simp only [loadLoopAux]
    omega
  | succ n ih =>
    intro i last stable hinv hij
    have hstreak : (if counts i = last then stable + 1 else 0) =
        stableStreak counts i := by
      rcases hinv with ⟨hi, hl, hs⟩ | ⟨i2, hi, hl, hs⟩
      · subst hi; subst hl; subst hs; simp [stableStreak]
      · subst hi; subst hl; subst hs; simp [stableStreak]
    simp only [loadLoopAux, hstreak]
    split
    · simp
      omega
    · rename_i hlt
      have hij2 : i < j := by
        rcases Nat.lt_or_ge i j with hlj | hlj
        · exact hlj
        · exact absurd (le_antisymm hij hlj ▸ hj) hlt
      split
      · have := ih (i + 1) (counts i) (stableStreak counts i)
          (Or.inr ⟨i, rfl, rfl, rfl⟩) (by omega)
        simpa using this
      · simp
        omega

theorem loadLoopAux_clickRounds (counts : Nat → Nat) (clicks : Nat → Bool) :
    ∀ fuel i last stable,
      (i = 0 ∧ last = 0 ∧ stable = 0 ∨
        ∃ i2, i = i2 + 1 ∧ last = counts i2 ∧ stable = stableStreak counts i2) →
      ∀ j ∈ (loadLoopAux counts clicks fuel i last stable).clickRounds,
        i ≤ j ∧ j < i + fuel ∧ stableStreak counts j < 2 := by
  intro fuel
  induction fuel with
  | zero => intro i last stable _ j hj; simp [loadLoopAux] at hj
  | succ n ih =>
    intro i last stable hinv j hj
    have hstreak : (if counts i = last then stable + 1 else 0) = stableStreak counts i := by
      rcases hinv with ⟨hi, hl, hs⟩ | ⟨i2, hi, hl, hs⟩
      · subst hi; subst hl; subst hs; simp [stableStreak]
      · subst hi; subst hl; subst hs; simp [stableStreak]
    simp only [loadLoopAux, hstreak] at hj
    split at hj
    · simp at hj
    · rename_i hlt
      split at hj
      · simp only [List.mem_cons] at hj
        rcases hj with rfl | hj
        · exact ⟨le_refl _, by omega, by omega⟩
        · have := ih (i + 1) (counts i) (stableStreak counts i)
            (Or.inr ⟨i, rfl, rfl, rfl⟩) j hj
          exact ⟨by omega, by omega, this.2.2⟩
      · simp only [List.mem_singleton] at hj
        subst hj
        exact ⟨le_refl _, by omega, by omega⟩

end Imo

namespace Imo

/-! ## Claim C2: InteractiveLoader termination -/

/-- C2: for every injected DOM-state sequence the round loop of
`_load_reviews_smart` executes at most `max_rounds` rounds (even when the
count never stabilizes); once the observed count has been unchanged for 2
consecutive rounds (the `stable_rounds` streak reaches 2 at round `j`) the
loop stops within round `j + 1`; and for a sequence that stabilizes
(constant counts, clicks succeeding) it stops with reason `stabilized`
within 3 rounds. -/
theorem C2_interactive_loader_termination
    (counts : Nat → Nat) (clicks : Nat → Bool) (maxRounds : Nat) :
    (loadReviewsSmartLoop counts clicks maxRounds).rounds ≤ maxRounds ∧
    (∀ j, 2 ≤ stableStreak counts j →
      (loadReviewsSmartLoop counts clicks maxRounds).rounds ≤ j + 1) ∧
    ((∀ i, counts i = counts 0) → (∀ i, clicks i = true) → 3 ≤ maxRounds →
      (loadReviewsSmartLoop counts clicks maxRounds).reason = .stabilized ∧
      (loadReviewsSmartLoop counts clicks maxRounds).rounds ≤ 3) := by
  refine ⟨?_, ?_, ?_⟩
  · simpa using loadLoopAux_rounds_le counts clicks maxRounds 0 0 0
  · intro j hj
    exact loadLoopAux_stop_on_streak counts clicks j hj maxRounds 0 0 0
      (Or.inl ⟨rfl, rfl, rfl⟩) (Nat.zero_le j)
  · intro hconst hclick h3
    obtain ⟨k, rfl⟩ : ∃ k, maxRounds = k + 1 + 1 + 1 := ⟨maxRounds - 3, by omega⟩
    unfold loadReviewsSmartLoop
    by_cases h0 : counts 0 = 0
    · simp [loadLoopAux, h0, hclick 0, hconst 1]
    · simp [loadLoopAux, h0, hclick 0, hclick 1, hconst 1, hconst 2]

/-- Witness for C2 at a concrete never-changing DOM sequence. -/
theorem C2_interactive_loader_termination_witness :
    (loadReviewsSmartLoop (fun _ => 7) (fun _ => true) 10).rounds ≤ 10 ∧
    (loadReviewsSmartLoop (fun _ => 7) (fun _ => true) 10).rounds ≤ 2 + 1 ∧
    ((loadReviewsSmartLoop (fun _ => 7) (fun _ => true) 10).reason = .stabilized ∧
      (loadReviewsSmartLoop (fun _ => 7) (fun _ => true) 10).rounds ≤ 3) :=
  ⟨(C2_interactive_loader_termination (fun _ => 7) (fun _ => true) 10).1,
   (C2_interactive_loader_termination (fun _ => 7) (fun _ => true) 10).2.1 2
     (by decide),
   (C2_interactive_loader_termination (fun _ => 7) (fun _ => true) 10).2.2
     (fun _ => rfl) (fun _ => rfl) (by omega)⟩

/-! ## Claim C6: when the loop attempts a click -/

/-- C6 (counterexample to the claim as stated): with a constant item count of
5 and clicks always succeeding, the loop attempts a click in round 1 even
though the count observed in round 1 equals the count of round 0, contradicting "the
loader never attempts a click in a round whose observed count equals the
count of the prior round". -/
theorem C6_click_guard_counterexample :
    1 ∈ (loadReviewsSmartLoop (fun _ => 5) (fun _ => true) 10).clickRounds ∧
    (fun _ => (5 : Nat)) 1 = (fun _ => (5 : Nat)) 0 := by
  exact ⟨by decide, rfl⟩

/-- C6 (amended): a click is attempted in round `j` only if `j` is below the
round ceiling and the count has been unchanged for fewer than 2 consecutive
rounds up to and including round `j` (the `stable_rounds` counter is `< 2`);
a single unchanged round does not yet suppress the click. -/
theorem C6_click_guard_amended (counts : Nat → Nat) (clicks : Nat → Bool)
    (maxRounds : Nat) (j : Nat)
    (hj : j ∈ (loadReviewsSmartLoop counts clicks maxRounds).clickRounds) :
    j < maxRounds ∧ stableStreak counts j < 2 := by
  have h := loadLoopAux_clickRounds counts clicks maxRounds 0 0 0
    (Or.inl ⟨rfl, rfl, rfl⟩) j hj
  exact ⟨by omega, h.2.2⟩

/-- Witness for the amended C6 at a concrete input. -/
theorem C6_click_guard_amended_witness :
    (0 : Nat) < 10 ∧ stableStreak (fun _ => 5) 0 < 2 :=
  C6_click_guard_amended (fun _ => 5) (fun _ => true) 10 0 (by decide)

end Imo

namespace Imo

/-! ## Claim C1: failure isolation per source -/

/-- C1: every fetcher is a total function of its injected effect outcomes
(so no exception escapes), and a failing effect yields zero candidates for
that branch: a failed Reddit search request yields `[]`, a failed query
inside `search_product` contributes nothing to the merged result, a failed
forum page fetch or forum discovery yields `[]`, and any browser failure
(invalid URL, session start, navigation, or an in-loop browser error) makes
`fetch_google_reviews` return `success=False` with an error message and an
empty review list. -/
theorem C1_failure_isolation :
    (∀ g : RedditGates, redditSearchQuery g none = []) ∧
    (∀ (g : RedditGates) (productName : String)
        (rs1 rs2 : List (Option (List RedditThreadData))),
      redditSearchProduct g productName (rs1 ++ none :: rs2) =
        redditSearchProduct g productName (rs1 ++ rs2)) ∧
    (∀ (g : ForumGates) (url : String), forumFetchPage g url none = []) ∧
    (∀ (g : ForumGates) (title : String), forumSearchProduct g title none = []) ∧
    (∀ (url productName : String) (maxClicks : Nat) (b : BrowserOutcome),
      ¬ (isValidGoogleShoppingUrl url = true ∧ b.launchOk = true ∧
          b.navOk = true ∧ b.sessionFail = false) →
      (fetchGoogleReviews url productName maxClicks b).result.success = false ∧
      (fetchGoogleReviews url productName maxClicks b).result.reviews = [] ∧
      (fetchGoogleReviews url productName maxClicks b).result.error ≠ none) := by
  refine ⟨fun g => rfl, ?_, fun g url => rfl, ?_, ?_⟩
  · intro g productName rs1 rs2
    unfold redditSearchProduct
    by_cases h : pyStrip productName = ""
    · simp [h]
    · simp [h, List.flatMap_append, redditSearchQuery]
  · intro g title
    unfold forumSearchProduct
    by_cases h : pyStrip title = ""
    · simp [h]
    · simp [h]
  · intro url productName maxClicks b h
    unfold fetchGoogleReviews
    by_cases hv : isValidGoogleShoppingUrl url = true
    · by_cases hl : b.launchOk = true
      · by_cases hn : b.navOk = true
        · by_cases hs : b.sessionFail = true
          · simp [hv, hl, hn, hs]
          · exact absurd ⟨hv, hl, hn, by simpa using hs⟩ h
        · simp [hv, hl, hn]
      · simp [hv, hl]
    · simp [hv]

/-- Witness for C1 at concrete failing effect outcomes. -/
theorem C1_failure_isolation_witness :
    (fetchGoogleReviews "https://www.google.com/shopping?udm=28" "p" 10
        ⟨false, false, false, fun _ => 0, fun _ => false,
          fun _ => []⟩).result.success = false ∧
    (fetchGoogleReviews "https://www.google.com/shopping?udm=28" "p" 10
        ⟨false, false, false, fun _ => 0, fun _ => false,
          fun _ => []⟩).result.reviews = [] ∧
    (fetchGoogleReviews "https://www.google.com/shopping?udm=28" "p" 10
        ⟨false, false, false, fun _ => 0, fun _ => false,
          fun _ => []⟩).result.error ≠ none :=
  C1_failure_isolation.2.2.2.2 "https://www.google.com/shopping?udm=28" "p" 10
    ⟨false, false, false, fun _ => 0, fun _ => false, fun _ => []⟩
    (fun hc => by simpa using hc.2.1)

/-! ## Claim C10: URL validation happens before any browser work -/

/-- C10: if the host of the URL does not contain "google", or its query string
carries none of the parameters `ibp`, `prds`, `udm`, then
`fetch_google_reviews` returns `success=False` with empty reviews without
starting a browser session or navigating. -/
theorem C10_invalid_url_no_browser
    (url productName : String) (maxClicks : Nat) (b : BrowserOutcome)
    (h : pyContains (urlNetloc url) "google" = false ∨
      ((parseQsKeys (urlQuery url)).contains "ibp" = false ∧
       (parseQsKeys (urlQuery url)).contains "prds" = false ∧
       (parseQsKeys (urlQuery url)).contains "udm" = false)) :
    (fetchGoogleReviews url productName maxClicks b).launched = false ∧
    (fetchGoogleReviews url productName maxClicks b).navigated = false ∧
    (fetchGoogleReviews url productName maxClicks b).result.success = false ∧
    (fetchGoogleReviews url productName maxClicks b).result.reviews = [] := by
  have hv : isValidGoogleShoppingUrl url = false := by
    show (pyContains (urlNetloc url) "google" &&
      ((parseQsKeys (urlQuery url)).contains "ibp" ||
       (parseQsKeys (urlQuery url)).contains "prds" ||
       (parseQsKeys (urlQuery url)).contains "udm")) = false
    rcases h with h | ⟨h1, h2, h3⟩
    · rw [h, Bool.false_and]
    · rw [h1, h2, h3]
      simp
  unfold fetchGoogleReviews
  simp [hv]

/-- Witness for C10 on a non-Google URL. -/
theorem C10_invalid_url_no_browser_witness :
    (fetchGoogleReviews "https://example.com/item?x=1" "p" 10
        ⟨true, true, false, fun _ => 0, fun _ => true,
          fun _ => []⟩).launched = false ∧
    (fetchGoogleReviews "https://example.com/item?x=1" "p" 10
        ⟨true, true, false, fun _ => 0, fun _ => true,
          fun _ => []⟩).navigated = false ∧
    (fetchGoogleReviews "https://example.com/item?x=1" "p" 10
        ⟨true, true, false, fun _ => 0, fun _ => true,
          fun _ => []⟩).result.success = false ∧
    (fetchGoogleReviews "https://example.com/item?x=1" "p" 10
        ⟨true, true, false, fun _ => 0, fun _ => true,
          fun _ => []⟩).result.reviews = [] :=
  C10_invalid_url_no_browser "https://example.com/item?x=1" "p" 10
    ⟨true, true, false, fun _ => 0, fun _ => true, fun _ => []⟩
    (Or.inl (by decide))

/-! ## Claim C7: degenerate titles fail closed -/

/-- C7: an empty or whitespace-only product title makes both
`RedditClient.search_product` and `ForumClient.search_product` return the
empty candidate list, whatever the injected responses. -/
theorem C7_degenerate_title_fail_closed
    (g : RedditGates) (g2 : ForumGates) (title : String)
    (resps : List (Option (List RedditThreadData)))
    (discovery : Option (List (String × Option ForumPage)))
    (h : pyStrip title = "") :
    redditSearchProduct g title resps = [] ∧
    forumSearchProduct g2 title discovery = [] := by
  constructor
  · unfold redditSearchProduct; simp [h]
  · unfold forumSearchProduct; simp [h]

/-- Witness for C7 on a whitespace-only title. -/
theorem C7_degenerate_title_fail_closed_witness :
    redditSearchProduct ⟨fun _ _ => false, fun _ => true, fun _ => 1⟩ "  "
        [some []] = [] ∧
    forumSearchProduct ⟨["sony"], "wh-1000xm5", fun _ => 1⟩ "  "
        (some []) = [] :=
  C7_degenerate_title_fail_closed
    ⟨fun _ _ => false, fun _ => true, fun _ => 1⟩
    ⟨["sony"], "wh-1000xm5", fun _ => 1⟩ "  " [some []] (some [])
    (by decide)

/-! ## Claim C8: shopping-results basic validity check -/

/-- C8: every review `_parse_reviews` emits has non-empty text of length
strictly greater than 10 and a strictly positive parsed rating, and nothing
more is filtered: every successfully extracted raw item passing exactly
that basic check is emitted (no relevance scoring is involved — the check
is complete as well as sound). -/
theorem C8_google_parse_basic_validity (items : List (Option RawGoogleItem)) :
    (∀ r ∈ parseGoogleReviews items,
      r.text ≠ "" ∧ 10 < r.text.length ∧ 0 < r.rating) ∧
    (∀ d ∈ items.filterMap id,
      (d.review_text ≠ "" ∧ 10 < d.review_text.length ∧
        0 < firstDigit d.rating_text) →
      ∃ r ∈ parseGoogleReviews items,
        r.text = d.review_text ∧ r.rating = firstDigit d.rating_text ∧
        r.source = d.source) := by
  constructor
  · intro r hr
    simp only [parseGoogleReviews, List.mem_filterMap] at hr
    obtain ⟨d, _, hpd⟩ := hr
    unfold processGoogleReview at hpd
    split at hpd
    · rename_i hcond
      injection hpd with h2
      subst h2
      exact hcond
    · exact Option.noConfusion hpd
  · intro d hd hcond
    refine ⟨{ reviewer_name := if d.name = "" then "Anonymous" else d.name,
              rating := firstDigit d.rating_text, title := "",
              text := d.review_text, review_date := "",
              source := d.source }, ?_, rfl, rfl, rfl⟩
    exact List.mem_filterMap.mpr
      ⟨d, hd, by unfold processGoogleReview; rw [if_pos hcond]⟩

/-- Witness for C8 on a concrete extracted item. -/
theorem C8_google_parse_basic_validity_witness :
    ∃ r ∈ parseGoogleReviews
        [some ⟨"A", "5 stars", "excellent product!!", "ebay.com"⟩],
      r.text = "excellent product!!" ∧ r.rating = 5 ∧ r.source = "ebay.com" := by
  have h := (C8_google_parse_basic_validity
      [some ⟨"A", "5 stars", "excellent product!!", "ebay.com"⟩]).2
      ⟨"A", "5 stars", "excellent product!!", "ebay.com"⟩ (by decide) (by decide)
  simpa using h

end Imo

namespace Imo

/-! ## Origin lemmas for emitted candidates -/

theorem mem_dedupByIdAux :
    ∀ (seen : List String) (l : List ReviewRec) (r : ReviewRec),
      r ∈ dedupByIdAux seen l → r ∈ l := by
  intro seen l
  induction l generalizing seen with
  | nil => intro r hr; simp [dedupByIdAux] at hr
  | cons a rest ih =>
    intro r hr
    unfold dedupByIdAux at hr
    split at hr
    · rcases List.mem_cons.mp hr with rfl | hr
      · exact List.mem_cons_self ..
      · exact List.mem_cons_of_mem _ (ih _ r hr)
    · exact List.mem_cons_of_mem _ (ih _ r hr)

theorem mem_forumDedupAux :
    ∀ (seen : List String) (l : List ReviewRec) (r : ReviewRec),
      r ∈ forumDedupAux seen l → r ∈ l := by
  intro seen l
  induction l generalizing seen with
  | nil => intro r hr; simp [forumDedupAux] at hr
  | cons a rest ih =>
    intro r hr
    unfold forumDedupAux at hr
    split at hr
    · rcases List.mem_cons.mp hr with rfl | hr
      · exact List.mem_cons_self ..
      · exact List.mem_cons_of_mem _ (ih _ r hr)
    · exact List.mem_cons_of_mem _ (ih _ r hr)

theorem processComment_spec (g : RedditGates) (ti pl tt : String)
    (c : RedditComment) (r : ReviewRec)
    (h : processComment g ti pl tt c = some r) :
    relevanceThreshold ≤ g.calcScore c.body ∧
    r.relevance_score = normalize_relevance_score (g.calcScore c.body) := by
  unfold processComment at h
  split at h
  · exact Option.noConfusion h
  · split at h
    · exact Option.noConfusion h
    · split at h
      · exact Option.noConfusion h
      · split at h
        · exact Option.noConfusion h
        · rename_i h4
          injection h with h5
          subst h5
          exact ⟨le_of_not_lt h4, rfl⟩

theorem mem_redditSearchQuery (g : RedditGates)
    (resp : Option (List RedditThreadData)) (r : ReviewRec)
    (h : r ∈ redditSearchQuery g resp) :
    ∃ c : RedditComment, relevanceThreshold ≤ g.calcScore c.body ∧
      r.relevance_score = normalize_relevance_score (g.calcScore c.body) := by
  match resp with
  | none => simp [redditSearchQuery] at h
  | some threads =>
    simp only [redditSearchQuery, List.mem_flatMap] at h
    obtain ⟨t, _, hr⟩ := h
    split at hr
    · simp at hr
    · split at hr
      · simp at hr
      · match hc : t.commentsResp with
        | none => rw [hc] at hr; simp [fetchThreadReviews] at hr
        | some comments =>
          rw [hc] at hr
          simp only [fetchThreadReviews, List.mem_filterMap] at hr
          obtain ⟨c, _, hpc⟩ := hr
          exact ⟨c, processComment_spec g t.id t.permalink t.title c r hpc⟩

theorem mem_forumFetchPage (g : ForumGates) (url : String)
    (resp : Option ForumPage) (r : ReviewRec)
    (h : r ∈ forumFetchPage g url resp) :
    ∃ page : ForumPage, relevanceThreshold ≤ g.calcScore (pyTake page.text 3000) ∧
      r.relevance_score =
        normalize_relevance_score (g.calcScore (pyTake page.text 3000)) := by
  match resp with
  | none => simp [forumFetchPage] at h
  | some page =>
    refine ⟨page, ?_⟩
    simp only [forumFetchPage] at h
    split at h
    · simp at h
    · split at h
      · simp at h
      · split at h
        · simp at h
        · split at h
          · simp at h
          · split at h
            · simp at h
            · rename_i hs
              rw [List.mem_singleton] at h
              subst h
              exact ⟨le_of_not_lt hs, rfl⟩

theorem relevanceThreshold_eq : relevanceThreshold = 3/5 := by
  unfold relevanceThreshold
  rw [Rat.mkRat_eq_div]
  norm_num

theorem normalize_relevance_score_mem_unit (s : ℚ) :
    0 ≤ normalize_relevance_score s ∧ normalize_relevance_score s ≤ 1 := by
  unfold normalize_relevance_score
  by_cases h1 : s < 0
  · rw [if_pos h1]
    norm_num
  · rw [if_neg h1]
    by_cases h2 : 1 < s
    · rw [if_pos h2]
      norm_num
    · rw [if_neg h2]
      exact ⟨le_of_not_lt h1, le_of_not_lt h2⟩

/-! ## Claim C3: page-level gate order and scorer independence -/

/-- C3: in `_fetch_forum_page` the structural rules (1) minimum length,
(2) keyword/model mention count, (3) ownership phrase, (4) rejection-phrase
absence run in that source order before the scoring rule (5); if any of
rules 1-4 fails the page is rejected (empty result) and the result is the
same for every relevance scorer — the scorer value is never consulted. -/
theorem C3_forum_gate_order (g : ForumGates) (url : String) (page : ForumPage)
    (h : ¬ (forumGateRule1 page = true ∧ forumGateRule2 g page = true ∧
            forumGateRule3 page = true ∧ forumGateRule4 page = true)) :
    forumFetchPage g url (some page) = [] ∧
    ∀ f1 f2 : String → ℚ,
      forumFetchPage ⟨g.keywords, g.model, f1⟩ url (some page) =
        forumFetchPage ⟨g.keywords, g.model, f2⟩ url (some page) := by
  have key : ∀ f : String → ℚ,
      forumFetchPage ⟨g.keywords, g.model, f⟩ url (some page) = [] := by
    intro f
    have hr2 : forumGateRule2 (⟨g.keywords, g.model, f⟩ : ForumGates) page =
        forumGateRule2 g page := rfl
    unfold forumFetchPage
    by_cases h1 : forumGateRule1 page = true
    · by_cases h2 : forumGateRule2 g page = true
      · by_cases h3 : forumGateRule3 page = true
        · by_cases h4 : forumGateRule4 page = true
          · exact absurd ⟨h1, h2, h3, h4⟩ h
          · simp [hr2, h1, h2, h3, h4]
        · simp [hr2, h1, h2, h3]
      · simp [hr2, h1, h2]
    · simp [h1]
  exact ⟨key g.calcScore, fun f1 f2 => (key f1).trans (key f2).symm⟩

/-- Witness for C3 on a page failing rule 1: rejected, and two different
scorers give the same outcome. -/
theorem C3_forum_gate_order_witness :
    forumFetchPage ⟨["sony"], "x1", fun _ => 1⟩ "u" (some ⟨"T", "short", []⟩) = [] ∧
    forumFetchPage ⟨["sony"], "x1", fun _ => 0⟩ "u" (some ⟨"T", "short", []⟩) =
      forumFetchPage ⟨["sony"], "x1", fun _ => 1⟩ "u" (some ⟨"T", "short", []⟩) := by
  have h := C3_forum_gate_order ⟨["sony"], "x1", fun _ => 1⟩ "u" ⟨"T", "short", []⟩
    (by decide)
  exact ⟨h.1, h.2 (fun _ => 0) (fun _ => 1)⟩

/-! ## Claim C4: emitted candidates were scored at or above 0.6 -/

/-- C4: every candidate emitted by `RedditClient.search_product` or
`ForumClient.search_product` was computed a relevance score `≥ 0.6` on its
scored text (comment body, resp. leading page text), and the
`relevance_score` stamped on it is that score squashed into `[0,1]`. -/
theorem C4_emitted_scores (g : RedditGates) (g2 : ForumGates)
    (productName title2 : String)
    (resps : List (Option (List RedditThreadData)))
    (discovery : Option (List (String × Option ForumPage))) :
    (∀ r ∈ redditSearchProduct g productName resps,
      (0 ≤ r.relevance_score ∧ r.relevance_score ≤ 1) ∧
      ∃ body : String, 3/5 ≤ g.calcScore body ∧
        r.relevance_score = normalize_relevance_score (g.calcScore body)) ∧
    (∀ r ∈ forumSearchProduct g2 title2 discovery,
      (0 ≤ r.relevance_score ∧ r.relevance_score ≤ 1) ∧
      ∃ t : String, 3/5 ≤ g2.calcScore t ∧
        r.relevance_score = normalize_relevance_score (g2.calcScore t)) := by
  constructor
  · intro r hr
    unfold redditSearchProduct at hr
    split at hr
    · simp at hr
    · have hr2 := mem_dedupByIdAux _ _ _ hr
      rw [List.mem_flatMap] at hr2
      obtain ⟨resp, _, hrq⟩ := hr2
      obtain ⟨c, hs, he⟩ := mem_redditSearchQuery g resp r hrq
      rw [relevanceThreshold_eq] at hs
      refine ⟨?_, c.body, hs, he⟩
      rw [he]
      exact normalize_relevance_score_mem_unit _
  · intro r hr
    unfold forumSearchProduct at hr
    split at hr
    · simp at hr
    · match hd : discovery with
      | none => simp at hr
      | some urls =>
        have hr2 := mem_forumDedupAux _ _ _ hr
        rw [List.mem_flatMap] at hr2
        obtain ⟨u, _, hp⟩ := hr2
        obtain ⟨page, hs, he⟩ := mem_forumFetchPage g2 u.1 u.2 r hp
        rw [relevanceThreshold_eq] at hs
        refine ⟨?_, pyTake page.text 3000, hs, he⟩
        rw [he]
        exact normalize_relevance_score_mem_unit _

/-- Witness for C4 on a concrete Reddit run that emits one candidate. -/
theorem C4_emitted_scores_witness :
    (0 ≤ (1 : ℚ) ∧ (1 : ℚ) ≤ 1) ∧
    ∃ _ : String, (3/5 : ℚ) ≤ 1 ∧ (1 : ℚ) = normalize_relevance_score 1 := by
  have h := (C4_emitted_scores ⟨fun _ _ => false, fun _ => true, fun _ => 1⟩
      ⟨[], "", fun _ => 1⟩ "Sony TV" ""
      [some [⟨"t1", "Sony", "", "/r/x", 3,
        some [⟨some "alice",
          "I have used this product daily for three months and it works great",
          "c1", 0⟩]⟩]] none).1
      { external_review_id := "reddit_t1_c1", source_review_id := "reddit_t1_c1",
        author := "alice", rating := none, title := "Sony",
        content := "I have used this product daily for three months and it works great",
        source := "Reddit", source_url := "https://reddit.com/r/x",
        relevance_score := 1 } (by decide)
  exact h

end Imo

namespace Imo

/-! ## Lemmas on the `seen_ids` deduplication -/

theorem dedupByIdAux_sublist :
    ∀ (seen : List String) (l : List ReviewRec),
      (dedupByIdAux seen l).Sublist l := by
  intro seen l
  induction l generalizing seen with
  | nil => simp [dedupByIdAux]
  | cons a rest ih =>
    unfold dedupByIdAux
    split
    · exact (ih _).cons₂ a
    · exact (ih _).cons a

theorem dedupByIdAux_filter (x : String) :
    ∀ (seen : List String) (l : List ReviewRec),
      (dedupByIdAux seen l).filter (fun r => r.external_review_id == x) =
        if x ∈ seen ∨ x = "" then []
        else (l.filter (fun r => r.external_review_id == x)).take 1 := by
  intro seen l
  induction l generalizing seen with
  | nil =>
    simp only [dedupByIdAux, List.filter_nil]
    split <;> simp
  | cons a rest ih =>
    unfold dedupByIdAux
    split
    · rename_i hk
      by_cases hax : a.external_review_id = x
      · subst hax
        rw [List.filter_cons_of_pos (by simp)]
        rw [ih]
        rw [if_pos (Or.inl (List.mem_cons_self ..))]
        rw [if_neg (by push_neg; exact ⟨hk.2, hk.1⟩)]
        rw [List.filter_cons_of_pos (by simp)]
        simp
      · rw [List.filter_cons_of_neg (by simp [hax])]
        rw [ih]
        by_cases hs : x ∈ seen ∨ x = ""
        · rw [if_pos, if_pos hs]
          rcases hs with hs | hs
          · exact Or.inl (List.mem_cons_of_mem _ hs)
          · exact Or.inr hs
        · rw [if_neg ?hneg, if_neg hs]
          case hneg =>
            intro hc
            rcases hc with hc | hc
            · rcases List.mem_cons.mp hc with hc2 | hc2
              · exact hax hc2.symm
              · exact hs (Or.inl hc2)
            · exact hs (Or.inr hc)
          rw [List.filter_cons_of_neg (by simp [hax])]
    · rename_i hk
      rw [ih]
      by_cases hs : x ∈ seen ∨ x = ""
      · rw [if_pos hs, if_pos hs]
      · rw [if_neg hs, if_neg hs]
        have hax : a.external_review_id ≠ x := by
          intro he
          rcases not_and_or.mp hk with h1 | h1
          · exact hs (Or.inr (he ▸ not_not.mp h1))
          · exact hs (Or.inl (he ▸ not_not.mp h1))
        rw [List.filter_cons_of_neg (by simp [hax])]

theorem dedupByIdAux_nodup :
    ∀ (seen : List String) (l : List ReviewRec),
      (∀ r ∈ dedupByIdAux seen l, r.external_review_id ∉ seen) ∧
      ((dedupByIdAux seen l).map (fun r => r.external_review_id)).Nodup := by
  intro seen l
  induction l generalizing seen with
  | nil => simp [dedupByIdAux]
  | cons a rest ih =>
    unfold dedupByIdAux
    split
    · rename_i hk
      obtain ⟨ihmem, ihnd⟩ := ih (a.external_review_id :: seen)
      constructor
      · intro r hr
        rcases List.mem_cons.mp hr with rfl | hr
        · exact hk.2
        · intro hc
          exact ihmem r hr (List.mem_cons_of_mem _ hc)
      · rw [List.map_cons]
        refine List.nodup_cons.mpr ⟨?_, ihnd⟩
        intro hc
        rw [List.mem_map] at hc
        obtain ⟨r, hr, hre⟩ := hc
        exact ihmem r hr (by rw [hre]; exact List.mem_cons_self ..)
    · exact ih seen

/-! ## Claim C9: composite-id deduplication in the Reddit fetcher -/

/-- C9: over one run of `RedditClient.search_product`, the returned list has
pairwise-distinct composite external ids, is a subsequence of the
concatenated per-query results, and for every non-empty id the survivor is
exactly the first-seen occurrence in fetch order (later ones discarded). -/
theorem C9_reddit_id_dedup (g : RedditGates) (productName : String)
    (resps : List (Option (List RedditThreadData)))
    (h : pyStrip productName ≠ "") :
    ((redditSearchProduct g productName resps).map
        (fun r => r.external_review_id)).Nodup ∧
    (redditSearchProduct g productName resps).Sublist
      (resps.flatMap (redditSearchQuery g)) ∧
    ∀ x : String, x ≠ "" →
      (redditSearchProduct g productName resps).filter
          (fun r => r.external_review_id == x) =
        ((resps.flatMap (redditSearchQuery g)).filter
          (fun r => r.external_review_id == x)).take 1 := by
  have hrw : redditSearchProduct g productName resps =
      dedupByIdAux [] (resps.flatMap (redditSearchQuery g)) := by
    unfold redditSearchProduct
    rw [if_neg h]
  refine ⟨?_, ?_, ?_⟩
  · rw [hrw]
    exact (dedupByIdAux_nodup [] _).2
  · rw [hrw]
    exact dedupByIdAux_sublist [] _
  · intro x hx
    rw [hrw, dedupByIdAux_filter]
    rw [if_neg (by simp [hx])]

/-- Witness for C9: the same thread returned by two queries yields one
surviving candidate, the first-seen one. -/
theorem C9_reddit_id_dedup_witness :
    ((redditSearchProduct ⟨fun _ _ => false, fun _ => true, fun _ => 1⟩ "Sony TV"
        [some [⟨"t1", "Sony", "", "/r/x", 3,
          some [⟨some "alice",
            "I have used this product daily for three months and it works great",
            "c1", 0⟩]⟩],
         some [⟨"t1", "Sony", "", "/r/x", 3,
          some [⟨some "alice",
            "I have used this product daily for three months and it works great",
            "c1", 0⟩]⟩]]).map (fun r => r.external_review_id)).Nodup ∧
    (redditSearchProduct ⟨fun _ _ => false, fun _ => true, fun _ => 1⟩ "Sony TV"
        [some [⟨"t1", "Sony", "", "/r/x", 3,
          some [⟨some "alice",
            "I have used this product daily for three months and it works great",
            "c1", 0⟩]⟩],
         some [⟨"t1", "Sony", "", "/r/x", 3,
          some [⟨some "alice",
            "I have used this product daily for three months and it works great",
            "c1", 0⟩]⟩]]).Sublist
      (([some [⟨"t1", "Sony", "", "/r/x", 3,
          some [⟨some "alice",
            "I have used this product daily for three months and it works great",
            "c1", 0⟩]⟩],
         some [⟨"t1", "Sony", "", "/r/x", 3,
          some [⟨some "alice",
            "I have used this product daily for three months and it works great",
            "c1", 0⟩]⟩]] :
        List (Option (List RedditThreadData))).flatMap
        (redditSearchQuery ⟨fun _ _ => false, fun _ => true, fun _ => 1⟩)) ∧
    (redditSearchProduct ⟨fun _ _ => false, fun _ => true, fun _ => 1⟩ "Sony TV"
        [some [⟨"t1", "Sony", "", "/r/x", 3,
          some [⟨some "alice",
            "I have used this product daily for three months and it works great",
            "c1", 0⟩]⟩],
         some [⟨"t1", "Sony", "", "/r/x", 3,
          some [⟨some "alice",
            "I have used this product daily for three months and it works great",
            "c1", 0⟩]⟩]]).filter
        (fun r => r.external_review_id == "reddit_t1_c1") =
      ((([some [⟨"t1", "Sony", "", "/r/x", 3,
          some [⟨some "alice",
            "I have used this product daily for three months and it works great",
            "c1", 0⟩]⟩],
         some [⟨"t1", "Sony", "", "/r/x", 3,
          some [⟨some "alice",
            "I have used this product daily for three months and it works great",
            "c1", 0⟩]⟩]] :
        List (Option (List RedditThreadData))).flatMap
        (redditSearchQuery ⟨fun _ _ => false, fun _ => true, fun _ => 1⟩)).filter
        (fun r => r.external_review_id == "reddit_t1_c1")).take 1 := by
  have h := C9_reddit_id_dedup ⟨fun _ _ => false, fun _ => true, fun _ => 1⟩
    "Sony TV"
    [some [⟨"t1", "Sony", "", "/r/x", 3,
      some [⟨some "alice",
        "I have used this product daily for three months and it works great",
        "c1", 0⟩]⟩],
     some [⟨"t1", "Sony", "", "/r/x", 3,
      some [⟨some "alice",
        "I have used this product daily for three months and it works great",
        "c1", 0⟩]⟩]] (by decide)
  exact ⟨h.1, h.2.1, h.2.2 "reddit_t1_c1" (by decide)⟩

end Imo

namespace Imo

/-! ## Length lemmas for the spec-modelled Deduplicator -/

theorem dedupAux_length_nodup (dup : String → String → Bool) :
    ∀ (l kept : List String),
      (∀ k ∈ kept, ∀ r ∈ l, dup k r = false) →
      l.Pairwise (fun a b => dup a b = false) →
      (dedupAux dup kept l).length = kept.length + l.length := by
  intro l
  induction l with
  | nil => intro kept _ _; simp [dedupAux]
  | cons a rest ih =>
    intro kept hcross hpw
    unfold dedupAux
    have hany : kept.any (fun k => dup k a) = false := by
      rw [List.any_eq_false]
      intro k hk
      simp [hcross k hk a (List.mem_cons_self ..)]
    simp only [hany, Bool.false_eq_true, if_false]
    have hrec := ih (a :: kept) ?_ ?_
    · rw [hrec]
      simp
      omega
    · intro k hk r hr
      rcases List.mem_cons.mp hk with rfl | hk
      · exact (List.pairwise_cons.mp hpw).1 r hr
      · exact hcross k hk r (List.mem_cons_of_mem _ hr)
    · exact (List.pairwise_cons.mp hpw).2

theorem dedupAux_length_cross (dup : String → String → Bool) :
    ∀ (l2 kept l3 : List String) (x y : String),
      x ∈ kept → dup x y = true →
      (∀ k ∈ kept, ∀ r ∈ l2 ++ l3, dup k r = false) →
      (l2 ++ l3).Pairwise (fun a b => dup a b = false) →
      (dedupAux dup kept (l2 ++ y :: l3)).length =
        kept.length + l2.length + l3.length := by
  intro l2
  induction l2 with
  | nil =>
    intro kept l3 x y hx hxy hcross hpw
    simp only [List.nil_append] at *
    unfold dedupAux
    have hany : kept.any (fun k => dup k y) = true :=
      List.any_eq_true.mpr ⟨x, hx, by simp [hxy]⟩
    simp only [hany, if_true]
    rw [dedupAux_length_nodup dup l3 kept hcross hpw]
    simp
  | cons a l2 ih =>
    intro kept l3 x y hx hxy hcross hpw
    simp only [List.cons_append] at *
    unfold dedupAux
    have hany : kept.any (fun k => dup k a) = false := by
      rw [List.any_eq_false]
      intro k hk
      simp [hcross k hk a (List.mem_cons_self ..)]
    simp only [hany, Bool.false_eq_true, if_false]
    have hrec := ih (a :: kept) l3 x y (List.mem_cons_of_mem _ hx) hxy ?_ ?_
    · rw [hrec]
      simp
      omega
    · intro k hk r hr
      rcases List.mem_cons.mp hk with rfl | hk
      · exact (List.pairwise_cons.mp hpw).1 r hr
      · exact hcross k hk r (List.mem_cons_of_mem _ hr)
    · exact (List.pairwise_cons.mp hpw).2

theorem dedupAux_length_one_dup (dup : String → String → Bool) :
    ∀ (l1 kept : List String) (x : String) (l2 : List String) (y : String)
      (l3 : List String),
      dup x y = true →
      (∀ k ∈ kept, ∀ r ∈ l1 ++ x :: l2 ++ l3, dup k r = false) →
      (l1 ++ x :: l2 ++ l3).Pairwise (fun a b => dup a b = false) →
      (dedupAux dup kept (l1 ++ x :: l2 ++ y :: l3)).length =
        kept.length + l1.length + 1 + l2.length + l3.length := by
  intro l1
  induction l1 with
  | nil =>
    intro kept x l2 y l3 hxy hcross hpw
    simp only [List.nil_append, List.cons_append] at *
    unfold dedupAux
    have hany : kept.any (fun k => dup k x) = false := by
      rw [List.any_eq_false]
      intro k hk
      simp [hcross k hk x (List.mem_cons_self ..)]
    simp only [hany, Bool.false_eq_true, if_false]
    have hrec := dedupAux_length_cross dup l2 (x :: kept) l3 x y
      (List.mem_cons_self ..) hxy ?_ ?_
    · rw [hrec]
      simp
    · intro k hk r hr
      rcases List.mem_cons.mp hk with rfl | hk
      · exact (List.pairwise_cons.mp hpw).1 r hr
      · exact hcross k hk r (List.mem_cons_of_mem _ hr)
    · exact (List.pairwise_cons.mp hpw).2
  | cons a l1 ih =>
    intro kept x l2 y l3 hxy hcross hpw
    simp only [List.cons_append] at *
    unfold dedupAux
    have hany : kept.any (fun k => dup k a) = false := by
      rw [List.any_eq_false]
      intro k hk
      simp [hcross k hk a (List.mem_cons_self ..)]
    simp only [hany, Bool.false_eq_true, if_false]
    have hrec := ih (a :: kept) x l2 y l3 hxy ?_ ?_
    · rw [hrec]
      simp
      omega
    · intro k hk r hr
      rcases List.mem_cons.mp hk with rfl | hk
      · exact (List.pairwise_cons.mp hpw).1 r hr
      · exact hcross k hk r (List.mem_cons_of_mem _ hr)
    · exact (List.pairwise_cons.mp hpw).2

end Imo

namespace Imo

/-! ## Claim C5: Deduplicator behaviour and thresholds -/

/-- C5: the (spec-modelled) Deduplicator is stable and first-seen-keeping:
a list whose only duplicate pair is one exact duplicate (identical
normalized content) shrinks by exactly one; for a two-element list the
second text is dropped iff its similarity to the first reaches the source
threshold (or the normalized contents coincide), otherwise both survive;
the thresholds are 0.90 for discussion/forum/retailer and 0.95 for the
shopping-results source. -/
theorem C5_deduplicator (src : ReviewSource) (sim : String → String → ℚ)
    (norm : String → String) :
    (∀ (l1 : List String) (x : String) (l2 : List String) (y : String)
        (l3 : List String),
      norm x = norm y →
      (l1 ++ x :: l2 ++ l3).Pairwise
        (fun a b => dupCriterion src sim norm a b = false) →
      (deduplicate (dupCriterion src sim norm)
          (l1 ++ x :: l2 ++ y :: l3)).length =
        (l1 ++ x :: l2 ++ y :: l3).length - 1) ∧
    (∀ a b : String, sourceThreshold src ≤ sim a b →
      deduplicate (dupCriterion src sim norm) [a, b] = [a]) ∧
    (∀ a b : String, sim a b < sourceThreshold src → norm a ≠ norm b →
      deduplicate (dupCriterion src sim norm) [a, b] = [a, b]) ∧
    sourceThreshold .discussion = 9/10 ∧ sourceThreshold .forum = 9/10 ∧
    sourceThreshold .retailer = 9/10 ∧ sourceThreshold .shopping = 19/20 := by
  refine ⟨?_, ?_, ?_, ?_, ?_, ?_, ?_⟩
  · intro l1 x l2 y l3 hnorm hpw
    have hxy : dupCriterion src sim norm x y = true := by
      simp [dupCriterion, hnorm]
    have h := dedupAux_length_one_dup (dupCriterion src sim norm) l1 [] x l2 y l3
      hxy (by intro k hk; simp at hk) hpw
    unfold deduplicate
    rw [h]
    simp only [List.length_append, List.length_cons, List.length_nil]
    omega
  · intro a b hab
    have h : dupCriterion src sim norm a b = true := by
      simp [dupCriterion, hab]
    simp [deduplicate, dedupAux, h]
  · intro a b h1 h2
    have h : dupCriterion src sim norm a b = false := by
      simp [dupCriterion, h2, not_le.mpr h1]
    simp [deduplicate, dedupAux, h]
  · rw [show sourceThreshold .discussion = mkRat 9 10 from rfl, Rat.mkRat_eq_div]
    norm_num
  · rw [show sourceThreshold .forum = mkRat 9 10 from rfl, Rat.mkRat_eq_div]
    norm_num
  · rw [show sourceThreshold .retailer = mkRat 9 10 from rfl, Rat.mkRat_eq_div]
    norm_num
  · rw [show sourceThreshold .shopping = mkRat 19 20 from rfl, Rat.mkRat_eq_div]
    norm_num

/-- Witness for C5 at concrete texts and similarity functions. -/
theorem C5_deduplicator_witness :
    (deduplicate (dupCriterion .discussion (fun _ _ => 1) id)
        ([] ++ "aa" :: [] ++ "aa" :: [])).length =
      ([] ++ "aa" :: [] ++ "aa" :: ([] : List String)).length - 1 ∧
    deduplicate (dupCriterion .discussion (fun _ _ => 1) id) ["a", "b"] = ["a"] ∧
    deduplicate (dupCriterion .shopping (fun _ _ => 0) id) ["a", "b"] =
      ["a", "b"] := by
  refine ⟨?_, ?_, ?_⟩
  · exact (C5_deduplicator .discussion (fun _ _ => 1) id).1 [] "aa" [] "aa" []
      rfl (by simp)
  · exact (C5_deduplicator .discussion (fun _ _ => 1) id).2.1 "a" "b"
      (by norm_num [sourceThreshold, Rat.mkRat_eq_div])
  · exact (C5_deduplicator .shopping (fun _ _ => 0) id).2.2.1 "a" "b"
      (by norm_num [sourceThreshold, Rat.mkRat_eq_div]) (by decide)

end Imo
